import Mathlib

/-!
Verification of the OSS-7 DASH7 radio HAL interface contract.

The data model (channel ids, RX/TX configurations, packet layout) is a
shallow embedding of the struct definitions in hw_radio.h.  The radio
driver state machine (mode transitions, buffer-lifecycle callbacks and
the RSSI sampler) is modelled from the specification, since the driver
implementation itself is not part of the visible sources: every such
definition carries a doc comment starting with "Modelled from the spec:".
-/

namespace HwRadio

/-- The channel id struct of hw_radio.h: a raw 8-bit channel header
(a union with three bit-fields, allocated LSB-first: ch_coding 2 bits,
ch_class 2 bits, ch_freq_band 4 bits) and a center-frequency index byte. -/
structure channel_id_t where
  channel_header : Nat
  center_freq_index : Nat
deriving DecidableEq, Repr

/-- The ch_coding bit-field: bits 0-1 of the channel header. -/
def ch_coding (c : channel_id_t) : Nat := c.channel_header % 4

/-- The ch_class bit-field: bits 2-3 of the channel header. -/
def ch_class (c : channel_id_t) : Nat := c.channel_header / 4 % 4

/-- The ch_freq_band bit-field: bits 4-7 of the channel header. -/
def ch_freq_band (c : channel_id_t) : Nat := c.channel_header / 16 % 16

/-- Packing the three bit-fields of channel_id_t into the raw header byte,
each field taken modulo its bit width. -/
def mk_channel_header (coding cls band : Nat) : Nat :=
  coding % 4 + 4 * (cls % 4) + 16 * (band % 16)

/-- hw_rx_cfg_t of hw_radio.h: channel id plus syncword class. -/
structure hw_rx_cfg_t where
  channel_id : channel_id_t
  syncword_class : Nat
deriving DecidableEq, Repr

/-- hw_tx_cfg_t of hw_radio.h: channel id, syncword class and the
transmission power (eirp) in dBm, documented range [-39, +10]. -/
structure hw_tx_cfg_t where
  channel_id : channel_id_t
  syncword_class : Nat
  eirp : Int
deriving DecidableEq, Repr

/-- Modelled from the spec: the validation predicate is_valid(RxConfig)
(spec 4.1).  The driver implementation is not in the sources, so the
supported set is modelled as every configuration whose fields fit the
declared C types (bytes). -/
def rx_cfg_valid (cfg : hw_rx_cfg_t) : Bool :=
  decide (cfg.channel_id.channel_header < 256) &&
  decide (cfg.channel_id.center_freq_index < 256) &&
  decide (cfg.syncword_class < 256)

/-- Modelled from the spec: the validation predicate is_valid(TxConfig)
(spec 4.1, 3): fields fit the declared C types and the requested transmit
power lies in the documented range [-39, +10] dBm, otherwise the request
is rejected (the rejection policy of spec 3 and 8). -/
def tx_cfg_valid (cfg : hw_tx_cfg_t) : Bool :=
  decide (cfg.channel_id.channel_header < 256) &&
  decide (cfg.channel_id.center_freq_index < 256) &&
  decide (cfg.syncword_class < 256) &&
  decide (-39 ≤ cfg.eirp) &&
  decide (cfg.eirp ≤ 10)

/-! ### Packed memory layout of hw_radio_packet_t

All structs involved are declared __attribute__((packed)), so offsets are
plain byte sums.  The optional timestamp field (present only when
HAL_RADIO_INCLUDE_TIMESTAMP is defined) contributes ts bytes to both
metadata variants; ts is kept as a parameter. -/

/-- Byte size of channel_id_t: one header byte (union) plus one index byte. -/
def sizeof_channel_id_t : Nat := 1 + 1

/-- Byte size of packed hw_rx_cfg_t: channel id plus syncword class byte. -/
def sizeof_hw_rx_cfg_t : Nat := sizeof_channel_id_t + 1

/-- Byte size of packed hw_tx_cfg_t: channel id, syncword class byte, eirp byte. -/
def sizeof_hw_tx_cfg_t : Nat := sizeof_channel_id_t + 1 + 1

/-- Byte size of packed hw_rx_metadata_t: optional timestamp, rx_cfg,
lqi byte, 16-bit rssi, crc_status byte. -/
def sizeof_hw_rx_metadata_t (ts : Nat) : Nat := ts + sizeof_hw_rx_cfg_t + 1 + 2 + 1

/-- Byte size of packed hw_tx_metadata_t: optional timestamp and tx_cfg. -/
def sizeof_hw_tx_metadata_t (ts : Nat) : Nat := ts + sizeof_hw_tx_cfg_t

/-- The role a hw_radio_packet_t currently plays: inbound (rx_meta active)
or outbound (tx_meta active). -/
inductive packet_role
  | rx_role
  | tx_role
deriving DecidableEq, Repr

/-- Byte size of the metadata variant active for a given role. -/
def active_meta_size (ts : Nat) : packet_role → Nat
  | .rx_role => sizeof_hw_rx_metadata_t ts
  | .tx_role => sizeof_hw_tx_metadata_t ts

/-- Byte size of the leading anonymous union of hw_radio_packet_t:
rx_meta and tx_meta occupy the same memory, so the union is as large as
the larger of the two. -/
def meta_union_size (ts : Nat) : Nat :=
  max (sizeof_hw_rx_metadata_t ts) (sizeof_hw_tx_metadata_t ts)

/-- Offset of the one-byte length field of hw_radio_packet_t: it sits in
the second anonymous union, directly after the metadata union; the role
argument records which metadata variant is active (the union makes the
offset independent of it). -/
def length_field_offset (ts : Nat) (_r : packet_role) : Nat := meta_union_size ts

/-- Offset of the data array of hw_radio_packet_t: the flexible array
follows the zero-size __resv member inside the same union as the length
field, so data[0] overlaps the length byte. -/
def data_field_offset (ts : Nat) (_r : packet_role) : Nat := meta_union_size ts

/-- Offset of the payload proper of a hw_radio_packet_t: the packet bytes
beyond the length byte.  Since data[0] overlaps the length field, the
payload content starts at data[1]. -/
def payload_offset (ts : Nat) (r : packet_role) : Nat := data_field_offset ts r + 1

/-! ### The radio driver state machine

Modelled from the spec: the hw_radio driver implementation is not among
the sources (only its interface hw_radio.h is), so the state machine of
spec 4.2-4.4 is embedded directly: states Idle / Rx(cfg) /
Tx(cfg, pending return state), the four buffer handoff points of
spec 4.3 and the RSSI sampler of spec 4.4. -/

/-- The mode the radio returns to once an in-flight transmission
completes (spec 4.2: the pending_return_state of the Tx state). -/
inductive pending_mode
  | idle
  | rx (cfg : hw_rx_cfg_t)
deriving DecidableEq, Repr

/-- The commanded radio mode (spec 4.2): Idle, Rx with its configuration,
or Tx with its configuration and the mode to restore afterwards. -/
inductive radio_mode
  | idle
  | rx (cfg : hw_rx_cfg_t)
  | tx (cfg : hw_tx_cfg_t) (pending : pending_mode)
deriving DecidableEq, Repr

/-- The error taxonomy of hw_radio.h / spec 7 (errors.h style codes). -/
inductive error_t
  | success
  | ealready
  | einval
  | esize
  | eoff
  | fail
deriving DecidableEq, Repr

/-- Modelled from the spec: the driver-visible state.  Packet buffers are
identified by a number; rx_in_progress holds the inbound buffer the
driver currently owns (at most one, spec 4.3), tx_buf the outbound buffer
owned by the driver during a transmission, and the RSSI sampler state is
the validity flag plus the last settled reading (spec 4.4). -/
structure radio_state where
  inited : Bool
  mode : radio_mode
  rx_in_progress : Option Nat
  tx_buf : Option Nat
  rssi_is_valid : Bool
  cur_rssi : Int
deriving DecidableEq, Repr

/-- The state before initialisation. -/
def init_state : radio_state :=
  ⟨false, .idle, none, none, false, 0⟩

/-- hw_radio_is_idle: reports the commanded mode; true in Idle, and also
during a transmission whose pending return state is Idle (hw_radio.h:
is_idle is true during an in-flight TX after set_idle was requested). -/
def hw_radio_is_idle (s : radio_state) : Bool :=
  match s.mode with
  | .idle => true
  | .tx _ .idle => true
  | _ => false

/-- hw_radio_is_rx: reports the commanded mode; true in Rx, and also
during a transmission whose pending return state is Rx. -/
def hw_radio_is_rx (s : radio_state) : Bool :=
  match s.mode with
  | .rx _ => true
  | .tx _ (.rx _) => true
  | _ => false

/-- hw_radio_tx_busy: a transmission is currently in flight. -/
def hw_radio_tx_busy (s : radio_state) : Bool :=
  match s.mode with
  | .tx _ _ => true
  | _ => false

/-- hw_radio_rx_busy: a reception is currently in flight (the driver
holds an inbound buffer). -/
def hw_radio_rx_busy (s : radio_state) : Bool :=
  s.rx_in_progress.isSome

/-- The invalid RSSI sentinel HW_RSSI_INVALID = 0x7FFF of hw_radio.h. -/
def HW_RSSI_INVALID : Int := 0x7FFF

/-- hw_radio_rssi_valid: whether the sampler currently holds a valid
reading for the current RX configuration. -/
def hw_radio_rssi_valid (s : radio_state) : Bool :=
  s.rssi_is_valid

/-- hw_radio_get_rssi: the current reading when valid, the sentinel
HW_RSSI_INVALID otherwise (hw_radio.h). -/
def hw_radio_get_rssi (s : radio_state) : Int :=
  if s.rssi_is_valid then s.cur_rssi else HW_RSSI_INVALID

/-- Modelled from the spec: a settled RSSI reading is rounded to the
nearest representable signed 16-bit value; 0x7FFF is reserved as the
invalid sentinel, so a valid stored reading is clamped to [-32768, 32766]. -/
def clamp_rssi (v : Int) : Int := max (-32768) (min 32766 v)

/-- The inputs driving the state machine: owner calls (init, set_idle,
set_rx, send_packet) and hardware events (an inbound packet detected
together with the allocation-callback response of the owner, reception
complete, transmission complete, RSSI settled). -/
inductive event
  | init
  | set_idle
  | set_rx (cfg : hw_rx_cfg_t)
  | send_packet (buf : Nat) (len : Nat) (cfg : hw_tx_cfg_t)
  | packet_detected (len : Nat) (alloc : Option Nat)
  | rx_complete
  | tx_complete
  | rssi_settled (v : Int)
deriving DecidableEq, Repr

/-- The callbacks the driver fires into the owner during one step
(spec 4.3 handoff points plus the rssi-valid notification). -/
inductive callback
  | alloc_cb (len : Nat) (res : Option Nat)
  | release_cb (buf : Nat)
  | rx_cb (buf : Nat)
  | tx_cb (buf : Nat)
  | rssi_valid_cb (v : Int)
deriving DecidableEq, Repr

/-- The outcome of one step: the new state, the callbacks fired during
the step (in order), and the error code returned when the event was an
owner call (none for hardware events). -/
structure step_result where
  state : radio_state
  outs : List callback
  res : Option error_t
deriving DecidableEq, Repr

/-- Modelled from the spec: one step of the radio driver state machine,
implementing the transition rules of spec 4.2, the buffer handoff points
of spec 4.3 and the RSSI sampler updates of spec 4.4.  TX always
preempts RX; RX never preempts TX (a set_rx or set_idle issued
mid-transmission is queued into the pending return state); an abandoned
reception is released, never delivered; allocation failure silently
drops the reception. -/
def step (s : radio_state) : event → step_result
  | .init =>
      if s.inited then ⟨s, [], some .ealready⟩
      else ⟨{ s with inited := true, mode := .idle }, [], some .success⟩
  | .set_idle =>
      if !s.inited then ⟨s, [], some .eoff⟩
      else if hw_radio_is_idle s then ⟨s, [], some .ealready⟩
      else
        match s.mode, s.rx_in_progress with
        | .rx _, some b =>
            ⟨{ s with mode := .idle, rx_in_progress := none, rssi_is_valid := false },
              [.release_cb b], some .success⟩
        | .rx _, none =>
            ⟨{ s with mode := .idle, rssi_is_valid := false }, [], some .success⟩
        | .tx c _, _ =>
            ⟨{ s with mode := .tx c .idle }, [], some .success⟩
        | .idle, _ => ⟨s, [], some .ealready⟩
  | .set_rx cfg =>
      if !s.inited then ⟨s, [], some .eoff⟩
      else if !rx_cfg_valid cfg then ⟨s, [], some .einval⟩
      else
        match s.mode, s.rx_in_progress with
        | .rx c, some b =>
            if c = cfg then ⟨s, [], some .ealready⟩
            else
              ⟨{ s with mode := .rx cfg, rx_in_progress := none, rssi_is_valid := false },
                [.release_cb b], some .success⟩
        | .rx c, none =>
            if c = cfg then ⟨s, [], some .ealready⟩
            else ⟨{ s with mode := .rx cfg, rssi_is_valid := false }, [], some .success⟩
        | .idle, _ =>
            ⟨{ s with mode := .rx cfg, rssi_is_valid := false }, [], some .success⟩
        | .tx c p, _ =>
            if p = .rx cfg then ⟨s, [], some .ealready⟩
            else ⟨{ s with mode := .tx c (.rx cfg) }, [], some .success⟩
  | .send_packet buf len cfg =>
      if !s.inited then ⟨s, [], some .eoff⟩
      else if !tx_cfg_valid cfg then ⟨s, [], some .einval⟩
      else if len == 0 || decide (255 < len) then ⟨s, [], some .esize⟩
      else
        match s.mode, s.rx_in_progress with
        | .tx _ _, _ => ⟨s, [], some .fail⟩
        | .idle, _ =>
            ⟨{ s with mode := .tx cfg .idle, tx_buf := some buf }, [], some .success⟩
        | .rx c, some b =>
            ⟨{ s with mode := .tx cfg (.rx c), rx_in_progress := none, tx_buf := some buf },
              [.release_cb b], some .success⟩
        | .rx c, none =>
            ⟨{ s with mode := .tx cfg (.rx c), tx_buf := some buf }, [], some .success⟩
  | .packet_detected len alloc =>
      match s.mode, s.rx_in_progress with
      | .rx _, none =>
          match alloc with
          | some b => ⟨{ s with rx_in_progress := some b }, [.alloc_cb len (some b)], none⟩
          | none => ⟨s, [.alloc_cb len none], none⟩
      | _, _ => ⟨s, [], none⟩
  | .rx_complete =>
      match s.mode, s.rx_in_progress with
      | .rx _, some b => ⟨{ s with rx_in_progress := none }, [.rx_cb b], none⟩
      | _, _ => ⟨s, [], none⟩
  | .tx_complete =>
      match s.mode, s.tx_buf with
      | .tx _ .idle, some b =>
          ⟨{ s with mode := .idle, tx_buf := none }, [.tx_cb b], none⟩
      | .tx _ (.rx c), some b =>
          ⟨{ s with mode := .rx c, tx_buf := none, rssi_is_valid := false },
            [.tx_cb b], none⟩
      | _, _ => ⟨s, [], none⟩
  | .rssi_settled v =>
      match s.mode with
      | .rx _ =>
          ⟨{ s with rssi_is_valid := true, cur_rssi := clamp_rssi v },
            [.rssi_valid_cb (clamp_rssi v)], none⟩
      | _ => ⟨s, [], none⟩

/-- Running a list of events from a state: the final state. -/
def run (s : radio_state) : List event → radio_state
  | [] => s
  | e :: es => run (step s e).state es

/-- Running a list of events from a state: the concatenated callbacks. -/
def run_outs (s : radio_state) : List event → List callback
  | [] => []
  | e :: es => (step s e).outs ++ run_outs (step s e).state es

/-- Recognise the allocation callback handing out exactly buffer b. -/
def is_alloc_of (b : Nat) : callback → Bool
  | .alloc_cb _ (some b2) => b2 == b
  | _ => false

/-- Recognise a handback of buffer b to the owner: the release callback
or the receive-complete callback (the only two handback paths for an
inbound buffer, spec 4.3). -/
def is_handback_of (b : Nat) : callback → Bool
  | .release_cb b2 => b2 == b
  | .rx_cb b2 => b2 == b
  | _ => false

/-- Recognise any successful allocation callback. -/
def is_alloc_some : callback → Bool
  | .alloc_cb _ (some _) => true
  | _ => false

/-- Recognise any inbound handback (release or receive-complete). -/
def is_handback : callback → Bool
  | .release_cb _ => true
  | .rx_cb _ => true
  | _ => false

/-- 1 when the driver currently holds inbound buffer b, else 0. -/
def owned_ind (o : Option Nat) (b : Nat) : Nat := if o = some b then 1 else 0

/-- 1 when the driver currently holds any inbound buffer, else 0. -/
def owned_any (o : Option Nat) : Nat := if o.isSome then 1 else 0

/-- Recognise a transmit-complete callback. -/
def is_tx_cb : callback → Bool
  | .tx_cb _ => true
  | _ => false

/-- Whether an event is a send_packet call that returns SUCCESS from
state s. -/
def is_send_success (s : radio_state) : event → Bool
  | .send_packet b l c => (step s (.send_packet b l c)).res == some .success
  | _ => false

/-- The number of successful send_packet calls along a run. -/
def send_success_count (s : radio_state) : List event → Nat
  | [] => 0
  | e :: es => (if is_send_success s e then 1 else 0) + send_success_count (step s e).state es

/-- How one event rewrites the pending return state of an in-flight
transmission: set_idle makes it Idle, a valid set_rx makes it Rx with
the new config, everything else leaves it alone (spec 4.2 tie-break: a
set_rx or set_idle issued mid-transmission is queued, and the later call
wins). -/
def pending_update (p : pending_mode) : event → pending_mode
  | .set_idle => .idle
  | .set_rx c => if rx_cfg_valid c then .rx c else p
  | _ => p

/-- The pending return state after a sequence of in-flight events. -/
def effective_pending (p : pending_mode) (es : List event) : pending_mode :=
  List.foldl pending_update p es

/-- The radio mode a pending return state restores to. -/
def apply_pending : pending_mode → radio_mode
  | .idle => .idle
  | .rx c => .rx c

/-- The mode recorded at send_packet time as the pending return state:
Idle stays Idle, Rx keeps its config (spec 4.2). -/
def pending_of : radio_mode → pending_mode
  | .idle => .idle
  | .rx c => .rx c
  | .tx _ p => p

/-- State invariant tying the outbound buffer slot to the commanded
mode: the driver holds a TX buffer exactly while a transmission is in
flight, and nothing but Idle is commanded before initialisation. -/
def tx_inv (s : radio_state) : Prop :=
  s.tx_buf.isSome = hw_radio_tx_busy s ∧ (s.inited = false → s.mode = .idle)

/-- State invariant of the RSSI sampler: a valid stored reading is a
representable non-sentinel 16-bit value. -/
def rssi_inv (s : radio_state) : Prop :=
  s.rssi_is_valid = true → (-32768 ≤ s.cur_rssi ∧ s.cur_rssi ≤ 32766)

/-- One step preserves the inbound-buffer ownership balance: the count of
allocations of b handed to the driver equals the count of handbacks of b
plus the in-driver indicator, and likewise globally. -/
theorem step_balance (s : radio_state) (e : event) (b : Nat) :
    (owned_ind s.rx_in_progress b + ((step s e).outs.countP (is_alloc_of b))
      = ((step s e).outs.countP (is_handback_of b))
        + owned_ind (step s e).state.rx_in_progress b) ∧
    (owned_any s.rx_in_progress + ((step s e).outs.countP is_alloc_some)
      = ((step s e).outs.countP is_handback)
        + owned_any (step s e).state.rx_in_progress) := by
  rcases s with ⟨i, m, rip, tb, rv, cr⟩
  cases e with
  | init =>
      cases i <;> simp [step, owned_ind, owned_any]
  | set_idle =>
      cases i with
      | false => simp [step, owned_ind, owned_any]
      | true =>
          rcases m with _ | c | ⟨tc, _ | pc⟩ <;> rcases rip with _ | b2 <;>
            simp [step, hw_radio_is_idle, owned_ind, owned_any,
              is_alloc_of, is_handback_of, is_alloc_some, is_handback,
              List.countP_cons] <;>
            by_cases hb : b2 = b <;> simp [hb]
  | set_rx cfg =>
      cases i with
      | false => simp [step, owned_ind, owned_any]
      | true =>
          cases hv : rx_cfg_valid cfg with
          | false => simp [step, hv, owned_ind, owned_any]
          | true =>
              rcases m with _ | c | ⟨tc, _ | pc⟩ <;> rcases rip with _ | b2 <;>
                simp [step, hv, owned_ind, owned_any,
                  is_alloc_of, is_handback_of, is_alloc_some, is_handback,
                  List.countP_cons] <;>
                split_ifs <;>
                simp_all [owned_ind, owned_any, is_alloc_of, is_handback_of,
                  is_alloc_some, is_handback] <;>
                by_cases hb : b2 = b <;> simp_all
  | send_packet buf len cfg =>
      cases i with
      | false => simp [step, owned_ind, owned_any]
      | true =>
          cases hv : tx_cfg_valid cfg with
          | false => simp [step, hv, owned_ind, owned_any]
          | true =>
              cases hsz : (len == 0 || decide (255 < len)) with
              | true => simp [step, hv, hsz, owned_ind, owned_any]
              | false =>
                  rcases m with _ | c | ⟨tc, _ | pc⟩ <;> rcases rip with _ | b2 <;>
                    simp [step, hv, hsz, owned_ind, owned_any,
                      is_alloc_of, is_handback_of, is_alloc_some, is_handback,
                      List.countP_cons] <;>
                    by_cases hb : b2 = b <;> simp [hb]
  | packet_detected len alloc =>
      rcases m with _ | c | ⟨tc, pc⟩ <;> rcases rip with _ | b2 <;>
        rcases alloc with _ | b3 <;>
        simp [step, owned_ind, owned_any,
          is_alloc_of, is_handback_of, is_alloc_some, is_handback,
          List.countP_cons] <;>
        by_cases hb : b3 = b <;> simp [hb]
  | rx_complete =>
      rcases m with _ | c | ⟨tc, pc⟩ <;> rcases rip with _ | b2 <;>
        simp [step, owned_ind, owned_any,
          is_alloc_of, is_handback_of, is_alloc_some, is_handback,
          List.countP_cons] <;>
        by_cases hb : b2 = b <;> simp [hb]
  | tx_complete =>
      rcases m with _ | c | ⟨tc, _ | pc⟩ <;> rcases tb with _ | b3 <;>
        simp [step, owned_ind, owned_any,
          is_alloc_of, is_handback_of, is_alloc_some, is_handback,
          List.countP_cons]
  | rssi_settled v =>
      rcases m with _ | c | ⟨tc, pc⟩ <;>
        simp [step, owned_ind, owned_any,
          is_alloc_of, is_handback_of, is_alloc_some, is_handback,
          List.countP_cons]

/-- The ownership balance holds along any run, for a single buffer and
globally. -/
theorem run_balance (es : List event) :
    ∀ (s : radio_state) (b : Nat),
      (owned_ind s.rx_in_progress b + ((run_outs s es).countP (is_alloc_of b))
        = ((run_outs s es).countP (is_handback_of b))
          + owned_ind (run s es).rx_in_progress b) ∧
      (owned_any s.rx_in_progress + ((run_outs s es).countP is_alloc_some)
        = ((run_outs s es).countP is_handback)
          + owned_any (run s es).rx_in_progress) := by
  induction es with
  | nil => intro s b; simp [run, run_outs]
  | cons e es ih =>
      intro s b
      have h1 := step_balance s e b
      have h2 := ih (step s e).state b
      simp only [run, run_outs, List.countP_append]
      omega

/-! ## Claims about the channel model and the packet layout -/

/-- C10: for every channel_id_t whose raw header fits a byte, that byte
equals ch_coding + 4 * ch_class + 16 * ch_freq_band (each bit-field taken
modulo its width), and two channel ids are equal exactly when their
channel_header bytes and their center_freq_index bytes are equal. -/
theorem C10_channel_header_packing :
    (∀ c : channel_id_t, c.channel_header < 256 →
      c.channel_header = ch_coding c + 4 * ch_class c + 16 * ch_freq_band c) ∧
    (∀ c1 c2 : channel_id_t,
      c1 = c2 ↔
        (c1.channel_header = c2.channel_header ∧
          c1.center_freq_index = c2.center_freq_index)) := by
  constructor
  · intro c h
    unfold ch_coding ch_class ch_freq_band
    omega
  · intro c1 c2
    constructor
    · intro h
      subst h
      exact ⟨rfl, rfl⟩
    · intro h
      cases c1
      cases c2
      simp only [channel_id_t.mk.injEq]
      exact h

/-- C10 witness: the packing identity evaluated on the concrete header
byte 0x5A (coding 2, class 2, band 5). -/
theorem C10_channel_header_packing_witness :
    (⟨0x5A, 3⟩ : channel_id_t).channel_header =
      ch_coding ⟨0x5A, 3⟩ + 4 * ch_class ⟨0x5A, 3⟩ + 16 * ch_freq_band ⟨0x5A, 3⟩ :=
  C10_channel_header_packing.1 ⟨0x5A, 3⟩ (by decide)

/-- C4: for every hw_radio_packet_t, in both the RX role and the TX role,
the payload (the packet bytes beyond the length byte, given that data[0]
overlaps the length field) begins exactly where the one-byte length field
ends, so payload access is at one fixed offset — the metadata union size
plus one — from the buffer start regardless of role. -/
theorem C4_payload_fixed_offset :
    ∀ (ts : Nat) (r r2 : packet_role),
      payload_offset ts r = length_field_offset ts r + 1 ∧
      payload_offset ts r = payload_offset ts r2 ∧
      data_field_offset ts r = length_field_offset ts r ∧
      length_field_offset ts r = meta_union_size ts := by
  intro ts r r2
  exact ⟨rfl, rfl, rfl, rfl⟩

/-! ## Claims about single driver steps -/

/-- C5: a send_packet whose TxConfig requests a transmit power outside
[-39, +10] dBm is rejected with EINVAL, the state is completely
unchanged (no hardware side effect, no callback fired), and tx_busy is
unchanged (in particular it remains false when it was false). -/
theorem C5_out_of_range_power_rejected :
    ∀ (s : radio_state) (buf len : Nat) (cfg : hw_tx_cfg_t),
      s.inited = true →
      (cfg.eirp < -39 ∨ 10 < cfg.eirp) →
      step s (.send_packet buf len cfg) = ⟨s, [], some .einval⟩ ∧
      hw_radio_tx_busy (step s (.send_packet buf len cfg)).state = hw_radio_tx_busy s := by
  intro s buf len cfg hi he
  have hv : tx_cfg_valid cfg = false := by
    simp only [tx_cfg_valid, Bool.and_eq_false_iff, decide_eq_false_iff_not, not_lt, not_le]
    omega
  constructor
  · simp [step, hi, hv]
  · simp [step, hi, hv]

/-- C5 witness: the rejection evaluated at a +20 dBm request from the
freshly initialised idle state. -/
theorem C5_out_of_range_power_rejected_witness :
    step ⟨true, .idle, none, none, false, 0⟩ (.send_packet 1 5 ⟨⟨0, 0⟩, 0, 20⟩) =
      ⟨⟨true, .idle, none, none, false, 0⟩, [], some .einval⟩ ∧
    hw_radio_tx_busy (step ⟨true, .idle, none, none, false, 0⟩
        (.send_packet 1 5 ⟨⟨0, 0⟩, 0, 20⟩)).state =
      hw_radio_tx_busy ⟨true, .idle, none, none, false, 0⟩ :=
  C5_out_of_range_power_rejected ⟨true, .idle, none, none, false, 0⟩ 1 5
    ⟨⟨0, 0⟩, 0, 20⟩ rfl (Or.inr (by decide))

/-- C6: a set_rx with a valid config identical to the current RX config
returns EALREADY with no hardware effect (no state change, no callback);
a set_rx with a different valid config while a reception is in progress
releases the in-progress buffer (it is not delivered) and re-arms the
radio in RX with the new config, resetting the RSSI sampler. -/
theorem C6_set_rx_identical_and_different :
    ∀ (s : radio_state) (c c2 : hw_rx_cfg_t) (b : Nat),
      s.inited = true →
      (s.mode = .rx c → rx_cfg_valid c = true →
        step s (.set_rx c) = ⟨s, [], some .ealready⟩) ∧
      (s.mode = .rx c → rx_cfg_valid c2 = true → c2 ≠ c →
        s.rx_in_progress = some b →
        step s (.set_rx c2) =
          ⟨{ s with mode := .rx c2, rx_in_progress := none, rssi_is_valid := false },
            [.release_cb b], some .success⟩) := by
  intro s c c2 b hi
  constructor
  · intro hm hv
    cases hr : s.rx_in_progress with
    | none => simp [step, hi, hv, hm, hr]
    | some b2 => simp [step, hi, hv, hm, hr]
  · intro hm hv hne hr
    have hcc : ¬(c = c2) := fun h => hne h.symm
    simp [step, hi, hv, hm, hr, hcc]

/-- C6 witness: both branches evaluated concretely — EALREADY on an
identical config, and release-and-re-arm on a different config with
buffer 7 in progress. -/
theorem C6_set_rx_identical_and_different_witness :
    (step ⟨true, .rx ⟨⟨0, 0⟩, 0⟩, some 7, none, false, 0⟩ (.set_rx ⟨⟨0, 0⟩, 0⟩) =
      ⟨⟨true, .rx ⟨⟨0, 0⟩, 0⟩, some 7, none, false, 0⟩, [], some .ealready⟩) ∧
    (step ⟨true, .rx ⟨⟨0, 0⟩, 0⟩, some 7, none, false, 0⟩ (.set_rx ⟨⟨1, 0⟩, 0⟩) =
      ⟨⟨true, .rx ⟨⟨1, 0⟩, 0⟩, none, none, false, 0⟩, [.release_cb 7], some .success⟩) :=
  ⟨(C6_set_rx_identical_and_different ⟨true, .rx ⟨⟨0, 0⟩, 0⟩, some 7, none, false, 0⟩
      ⟨⟨0, 0⟩, 0⟩ ⟨⟨1, 0⟩, 0⟩ 7 rfl).1 rfl (by decide),
    (C6_set_rx_identical_and_different ⟨true, .rx ⟨⟨0, 0⟩, 0⟩, some 7, none, false, 0⟩
      ⟨⟨0, 0⟩, 0⟩ ⟨⟨1, 0⟩, 0⟩ 7 rfl).2 rfl (by decide) (by decide) rfl⟩

/-- C8: is_idle and is_rx report the commanded mode: after a set_rx with
a valid config on an initialised driver, is_rx is true and is_idle is
false (whatever the prior mode, including a queued set_rx during TX);
and a set_idle issued during an in-flight transmission makes is_idle
true immediately while tx_busy stays true. -/
theorem C8_commanded_mode_queries :
    ∀ (s : radio_state) (c : hw_rx_cfg_t),
      (s.inited = true → rx_cfg_valid c = true →
        hw_radio_is_rx (step s (.set_rx c)).state = true ∧
        hw_radio_is_idle (step s (.set_rx c)).state = false) ∧
      (∀ (tc : hw_tx_cfg_t) (p : pending_mode), s.mode = .tx tc p → s.inited = true →
        hw_radio_is_idle (step s .set_idle).state = true ∧
        hw_radio_tx_busy (step s .set_idle).state = true) := by
  intro s c
  constructor
  · intro hi hv
    cases hm : s.mode with
    | idle => simp [step, hi, hv, hm, hw_radio_is_rx, hw_radio_is_idle]
    | rx c0 =>
        cases hr : s.rx_in_progress with
        | none =>
            by_cases hc : c0 = c
            · simp [step, hi, hv, hm, hr, hc, hw_radio_is_rx, hw_radio_is_idle]
            · simp [step, hi, hv, hm, hr, hc, hw_radio_is_rx, hw_radio_is_idle]
        | some b =>
            by_cases hc : c0 = c
            · simp [step, hi, hv, hm, hr, hc, hw_radio_is_rx, hw_radio_is_idle]
            · simp [step, hi, hv, hm, hr, hc, hw_radio_is_rx, hw_radio_is_idle]
    | tx tc p =>
        by_cases hp : p = .rx c
        · simp [step, hi, hv, hm, hp, hw_radio_is_rx, hw_radio_is_idle]
        · simp [step, hi, hv, hm, hp, hw_radio_is_rx, hw_radio_is_idle]
  · intro tc p hm hi
    cases hp : p with
    | idle =>
        have hidle : hw_radio_is_idle s = true := by
          simp [hw_radio_is_idle, hm, hp]
        simp [step, hi, hidle, hw_radio_is_idle, hw_radio_tx_busy, hm, hp]
    | rx c0 =>
        have hidle : hw_radio_is_idle s = false := by
          simp [hw_radio_is_idle, hm, hp]
        simp [step, hi, hidle, hm, hp, hw_radio_is_idle, hw_radio_tx_busy]

/-- C8 witness: set_rx from idle makes is_rx true and is_idle false, and
set_idle during an in-flight transmission (pending RX) makes is_idle
true while tx_busy stays true. -/
theorem C8_commanded_mode_queries_witness :
    (hw_radio_is_rx (step ⟨true, .idle, none, none, false, 0⟩
        (.set_rx ⟨⟨0, 0⟩, 0⟩)).state = true ∧
      hw_radio_is_idle (step ⟨true, .idle, none, none, false, 0⟩
        (.set_rx ⟨⟨0, 0⟩, 0⟩)).state = false) ∧
    (hw_radio_is_idle (step ⟨true, .tx ⟨⟨0, 0⟩, 0, 10⟩ (.rx ⟨⟨0, 0⟩, 0⟩), none, some 3, false, 0⟩
        .set_idle).state = true ∧
      hw_radio_tx_busy (step ⟨true, .tx ⟨⟨0, 0⟩, 0, 10⟩ (.rx ⟨⟨0, 0⟩, 0⟩), none, some 3, false, 0⟩
        .set_idle).state = true) :=
  ⟨(C8_commanded_mode_queries ⟨true, .idle, none, none, false, 0⟩ ⟨⟨0, 0⟩, 0⟩).1
      rfl (by decide),
    (C8_commanded_mode_queries
        ⟨true, .tx ⟨⟨0, 0⟩, 0, 10⟩ (.rx ⟨⟨0, 0⟩, 0⟩), none, some 3, false, 0⟩
        ⟨⟨0, 0⟩, 0⟩).2 ⟨⟨0, 0⟩, 0, 10⟩ (.rx ⟨⟨0, 0⟩, 0⟩) rfl rfl⟩

/-- C9: when the allocation callback returns none for a detected inbound
packet, the driver silently drops the reception: the state (and in
particular the radio mode) is completely unchanged, no error code is
surfaced, and the only observable effect is the allocation callback
itself. -/
theorem C9_alloc_failure_silent_drop :
    ∀ (s : radio_state) (len : Nat) (c : hw_rx_cfg_t),
      s.mode = .rx c → s.rx_in_progress = none →
      step s (.packet_detected len none) = ⟨s, [.alloc_cb len none], none⟩ := by
  intro s len c hm hr
  simp [step, hm, hr]

/-- C9 witness: the silent drop evaluated in a concrete RX state. -/
theorem C9_alloc_failure_silent_drop_witness :
    step ⟨true, .rx ⟨⟨0, 0⟩, 0⟩, none, none, false, 0⟩ (.packet_detected 20 none) =
      ⟨⟨true, .rx ⟨⟨0, 0⟩, 0⟩, none, none, false, 0⟩, [.alloc_cb 20 none], none⟩ :=
  C9_alloc_failure_silent_drop ⟨true, .rx ⟨⟨0, 0⟩, 0⟩, none, none, false, 0⟩ 20
    ⟨⟨0, 0⟩, 0⟩ rfl rfl

/-! ## Trace claims -/

/-- C1: inbound buffer ownership round-trip.  Along every run from the
initial state, for every buffer b the number of allocation callbacks that
handed b to the driver equals the number of handbacks of b (release or
receive-complete, exactly one per allocation) plus one exactly when the
driver currently holds b — so each allocated buffer has exactly one owner
at every instant; and globally the same balance holds with the single
rx_in_progress slot, so every allocated buffer is handed back before the
next allocation callback can fire. -/
theorem C1_inbound_ownership_roundtrip :
    ∀ (es : List event) (b : Nat),
      ((run_outs init_state es).countP (is_alloc_of b)
        = ((run_outs init_state es).countP (is_handback_of b))
          + owned_ind (run init_state es).rx_in_progress b) ∧
      ((run_outs init_state es).countP is_alloc_some
        = ((run_outs init_state es).countP is_handback)
          + owned_any (run init_state es).rx_in_progress) := by
  intro es b
  have h := run_balance es init_state b
  simpa [init_state, owned_ind, owned_any] using h

/-- Every step preserves the TX-buffer/mode invariant. -/
theorem step_tx_inv (s : radio_state) (e : event) (h : tx_inv s) :
    tx_inv (step s e).state := by
  obtain ⟨h1, h2⟩ := h
  rcases s with ⟨i, m, rip, tb, rv, cr⟩
  cases e with
  | init =>
      cases i with
      | true => exact ⟨h1, by simp [step]⟩
      | false =>
          have hm : m = radio_mode.idle := h2 rfl
          subst hm
          simp only [hw_radio_tx_busy] at h1
          constructor
          · simp [step, hw_radio_tx_busy, h1]
          · simp [step]
  | set_idle =>
      cases i with
      | false => exact ⟨h1, h2⟩
      | true =>
          rcases m with _ | c | ⟨tc, _ | pc⟩ <;> rcases rip with _ | b2 <;>
            simp_all [step, hw_radio_is_idle, hw_radio_tx_busy, tx_inv]
  | set_rx cfg =>
      cases i with
      | false => exact ⟨h1, h2⟩
      | true =>
          cases hv : rx_cfg_valid cfg with
          | false => simp_all [step, tx_inv]
          | true =>
              rcases m with _ | c | ⟨tc, _ | pc⟩ <;> rcases rip with _ | b2 <;>
                simp_all [step, hw_radio_tx_busy, tx_inv] <;>
                split_ifs <;> simp_all [hw_radio_tx_busy]
  | send_packet buf len cfg =>
      cases i with
      | false => exact ⟨h1, h2⟩
      | true =>
          cases hv : tx_cfg_valid cfg with
          | false => simp_all [step, tx_inv]
          | true =>
              cases hsz : (len == 0 || decide (255 < len)) with
              | true => simp_all [step, tx_inv]
              | false =>
                  rcases m with _ | c | ⟨tc, _ | pc⟩ <;> rcases rip with _ | b2 <;>
                    simp_all [step, hw_radio_tx_busy, tx_inv] <;>
                    (try split_ifs) <;> (try simp_all) <;> omega
  | packet_detected len alloc =>
      rcases m with _ | c | ⟨tc, pc⟩ <;> rcases rip with _ | b2 <;>
        rcases alloc with _ | b3 <;>
        simp_all [step, hw_radio_tx_busy, tx_inv]
  | rx_complete =>
      rcases m with _ | c | ⟨tc, pc⟩ <;> rcases rip with _ | b2 <;>
        simp_all [step, hw_radio_tx_busy, tx_inv]
  | tx_complete =>
      rcases m with _ | c | ⟨tc, _ | pc⟩ <;> rcases tb with _ | b3 <;>
        simp_all [step, hw_radio_tx_busy, tx_inv]
  | rssi_settled v =>
      rcases m with _ | c | ⟨tc, pc⟩ <;>
        simp_all [step, hw_radio_tx_busy, tx_inv]

/-- One step preserves the outbound accounting balance: successful sends
hand a buffer to the driver, transmit-complete callbacks hand it back. -/
theorem step_tx_balance (s : radio_state) (e : event) (h : tx_inv s) :
    (if s.tx_buf.isSome then 1 else 0) + (if is_send_success s e then 1 else 0)
      = ((step s e).outs.countP is_tx_cb)
        + (if (step s e).state.tx_buf.isSome then 1 else 0) := by
  obtain ⟨h1, h2⟩ := h
  rcases s with ⟨i, m, rip, tb, rv, cr⟩
  cases e with
  | init =>
      cases i <;> simp [step, is_send_success]
  | set_idle =>
      cases i with
      | false => simp [step, is_send_success]
      | true =>
          rcases m with _ | c | ⟨tc, _ | pc⟩ <;> rcases rip with _ | b2 <;>
            simp [step, hw_radio_is_idle, is_send_success, is_tx_cb, List.countP_cons]
  | set_rx cfg =>
      cases i with
      | false => simp [step, is_send_success]
      | true =>
          cases hv : rx_cfg_valid cfg with
          | false => simp [step, hv, is_send_success]
          | true =>
              rcases m with _ | c | ⟨tc, _ | pc⟩ <;> rcases rip with _ | b2 <;>
                simp [step, hv, is_send_success, is_tx_cb, List.countP_cons] <;>
                split_ifs <;> simp [is_tx_cb, List.countP_cons]
  | send_packet buf len cfg =>
      cases i with
      | false => simp [step, is_send_success]
      | true =>
          cases hv : tx_cfg_valid cfg with
          | false => simp [step, hv, is_send_success]
          | true =>
              cases hsz : (len == 0 || decide (255 < len)) with
              | true => simp [step, hv, hsz, is_send_success]
              | false =>
                  rcases m with _ | c | ⟨tc, _ | pc⟩ <;> rcases rip with _ | b2 <;>
                    simp_all [step, hv, hsz, is_send_success, is_tx_cb,
                      hw_radio_tx_busy, List.countP_cons] <;>
                    (try split_ifs) <;> (try simp_all [is_tx_cb]) <;> (try omega)
  | packet_detected len alloc =>
      rcases m with _ | c | ⟨tc, pc⟩ <;> rcases rip with _ | b2 <;>
        rcases alloc with _ | b3 <;>
        simp [step, is_send_success, is_tx_cb, List.countP_cons]
  | rx_complete =>
      rcases m with _ | c | ⟨tc, pc⟩ <;> rcases rip with _ | b2 <;>
        simp [step, is_send_success, is_tx_cb, List.countP_cons]
  | tx_complete =>
      rcases m with _ | c | ⟨tc, _ | pc⟩ <;> rcases tb with _ | b3 <;>
        simp_all [step, is_send_success, is_tx_cb, hw_radio_tx_busy, List.countP_cons]
  | rssi_settled v =>
      rcases m with _ | c | ⟨tc, pc⟩ <;>
        simp [step, is_send_success, is_tx_cb, List.countP_cons]

/-- The outbound accounting balance holds along any run from a state
satisfying the TX invariant. -/
theorem run_tx_balance (es : List event) :
    ∀ s : radio_state, tx_inv s →
      (if s.tx_buf.isSome then 1 else 0) + send_success_count s es
        = ((run_outs s es).countP is_tx_cb)
          + (if (run s es).tx_buf.isSome then 1 else 0) := by
  induction es with
  | nil => intro s _; simp [run, run_outs, send_success_count]
  | cons e es ih =>
      intro s h
      have h1 := step_tx_balance s e h
      have h2 := ih (step s e).state (step_tx_inv s e h)
      simp only [run, run_outs, send_success_count, List.countP_append]
      omega

/-- C7: the transmit-complete callback fires exactly once per successful
send_packet and never synchronously.  A send_packet step itself fires no
transmit-complete callback (so the callback always comes strictly after
the call has returned); along any run from the initial state, the number
of transmit-complete callbacks equals the number of successful
send_packet calls minus the one still in flight (so a callback fires iff
the call returned success, once); and a transmit-complete hardware event
while a transmission is in flight fires the callback with exactly the
sent buffer. -/
theorem C7_tx_callback_iff_success :
    ∀ (es : List event) (s : radio_state) (buf len : Nat)
      (cfg tc : hw_tx_cfg_t) (p : pending_mode) (b : Nat),
      ((step s (.send_packet buf len cfg)).outs.countP is_tx_cb = 0) ∧
      (send_success_count init_state es
        = ((run_outs init_state es).countP is_tx_cb)
          + (if (run init_state es).tx_buf.isSome then 1 else 0)) ∧
      (s.mode = .tx tc p → s.tx_buf = some b →
        (step s .tx_complete).outs = [.tx_cb b]) := by
  intro es s buf len cfg tc p b
  refine ⟨?_, ?_, ?_⟩
  · rcases s with ⟨i, m, rip, tb, rv, cr⟩
    cases i with
    | false => simp [step, is_tx_cb]
    | true =>
        cases hv : tx_cfg_valid cfg with
        | false => simp [step, hv, is_tx_cb]
        | true =>
            cases hsz : (len == 0 || decide (255 < len)) with
            | true => simp [step, hv, hsz, is_tx_cb]
            | false =>
                rcases m with _ | c | ⟨tc2, _ | pc⟩ <;> rcases rip with _ | b2 <;>
                  simp [step, hv, hsz, is_tx_cb, List.countP_cons]
  · have hinv : tx_inv init_state := by
      constructor
      · simp [init_state, hw_radio_tx_busy]
      · intro _; rfl
    have h := run_tx_balance es init_state hinv
    simpa [init_state] using h
  · intro hm hb
    cases p with
    | idle => simp [step, hm, hb]
    | rx c2 => simp [step, hm, hb]

/-- C7 witness: a transmit-complete event during a concrete in-flight
transmission fires the callback with the sent buffer. -/
theorem C7_tx_callback_iff_success_witness :
    (step ⟨true, .tx ⟨⟨0, 0⟩, 0, 10⟩ .idle, none, some 4, false, 0⟩ .tx_complete).outs
      = [.tx_cb 4] :=
  (C7_tx_callback_iff_success [] ⟨true, .tx ⟨⟨0, 0⟩, 0, 10⟩ .idle, none, some 4, false, 0⟩
    0 0 ⟨⟨0, 0⟩, 0, 10⟩ ⟨⟨0, 0⟩, 0, 10⟩ .idle 4).2.2 rfl rfl

/-- While a transmission is in flight, any event other than the
transmit-complete hardware event keeps the machine in TX with the same
config and buffer, rewriting only the pending return state as
pending_update describes. -/
theorem step_in_flight (s : radio_state) (e : event) (tc : hw_tx_cfg_t)
    (p : pending_mode) (hi : s.inited = true) (hm : s.mode = .tx tc p)
    (he : e ≠ event.tx_complete) :
    (step s e).state.mode = .tx tc (pending_update p e) ∧
    (step s e).state.tx_buf = s.tx_buf ∧
    (step s e).state.inited = true := by
  rcases s with ⟨i, m, rip, tb, rv, cr⟩
  simp only at hi hm
  subst hi hm
  cases e with
  | init => simp [step, pending_update]
  | set_idle =>
      cases p with
      | idle => simp [step, hw_radio_is_idle, pending_update]
      | rx pc => simp [step, hw_radio_is_idle, pending_update]
  | set_rx cfg =>
      cases hv : rx_cfg_valid cfg with
      | false => simp [step, hv, pending_update]
      | true =>
          by_cases hp : p = .rx cfg
          · subst hp; simp [step, hv, pending_update]
          · simp [step, hv, hp, pending_update]
  | send_packet buf len cfg =>
      cases hv : tx_cfg_valid cfg with
      | false => simp [step, hv, pending_update]
      | true =>
          cases hsz : (len == 0 || decide (255 < len)) with
          | true => simp [step, hv, hsz, pending_update]
          | false => simp [step, hv, hsz, pending_update]
  | packet_detected len alloc => simp [step, pending_update]
  | rx_complete => simp [step, pending_update]
  | tx_complete => exact absurd rfl he
  | rssi_settled v => simp [step, pending_update]

/-- While a transmission is in flight, a whole run without the
transmit-complete event keeps the machine in TX with the same config and
buffer, and the pending return state is the fold of pending_update. -/
theorem run_in_flight (es : List event) :
    ∀ (s : radio_state) (tc : hw_tx_cfg_t) (p : pending_mode),
      s.inited = true → s.mode = .tx tc p →
      (∀ e ∈ es, e ≠ event.tx_complete) →
      (run s es).mode = .tx tc (effective_pending p es) ∧
      (run s es).tx_buf = s.tx_buf ∧
      (run s es).inited = true := by
  induction es with
  | nil =>
      intro s tc p hi hm _
      exact ⟨by simpa [run, effective_pending] using hm, rfl, hi⟩
  | cons e es ih =>
      intro s tc p hi hm hno
      have hne : e ≠ event.tx_complete := hno e (List.mem_cons_self e es)
      have h1 := step_in_flight s e tc p hi hm hne
      have h2 := ih (step s e).state tc (pending_update p e) h1.2.2 h1.1
        (fun e2 he2 => hno e2 (List.mem_cons_of_mem e he2))
      refine ⟨?_, ?_, h2.2.2⟩
      · simpa [run, effective_pending, List.foldl_cons] using h2.1
      · have hrw : run s (e :: es) = run (step s e).state es := rfl
        rw [hrw, h2.2.1, h1.2.1]

/-- A successful send_packet records the prior commanded mode as the
pending return state, hands the buffer to the driver and enters TX. -/
theorem send_success_post (s : radio_state) (buf len : Nat) (cfg : hw_tx_cfg_t)
    (h : (step s (.send_packet buf len cfg)).res = some .success) :
    s.inited = true ∧
    (step s (.send_packet buf len cfg)).state.inited = true ∧
    (step s (.send_packet buf len cfg)).state.mode = .tx cfg (pending_of s.mode) ∧
    (step s (.send_packet buf len cfg)).state.tx_buf = some buf := by
  rcases s with ⟨i, m, rip, tb, rv, cr⟩
  cases i with
  | false => simp [step] at h
  | true =>
      cases hv : tx_cfg_valid cfg with
      | false => simp [step, hv] at h
      | true =>
          cases hsz : (len == 0 || decide (255 < len)) with
          | true => simp [step, hv, hsz] at h
          | false =>
              rcases m with _ | c | ⟨tc, _ | pc⟩ <;> rcases rip with _ | b2 <;>
                simp_all [step, hv, hsz, pending_of] <;>
                (try split_ifs) <;> (try simp_all) <;> omega

/-- C2: after the transmit-complete callback for a successfully sent
packet, the commanded mode equals the mode recorded when send_packet was
called (Rx with the same config if it was Rx, Idle if it was Idle),
except that any set_idle / set_rx issued while the transmission was in
flight rewrites the recorded mode, the later call winning — the restored
mode is the fold of those in-flight requests over the recorded mode. -/
theorem C2_mode_restored_after_tx_complete :
    ∀ (s : radio_state) (buf len : Nat) (cfg : hw_tx_cfg_t) (es : List event),
      (step s (.send_packet buf len cfg)).res = some .success →
      (∀ e ∈ es, e ≠ event.tx_complete) →
      (step (run (step s (.send_packet buf len cfg)).state es) .tx_complete).outs
          = [.tx_cb buf] ∧
      (step (run (step s (.send_packet buf len cfg)).state es) .tx_complete).state.mode
          = apply_pending (effective_pending (pending_of s.mode) es) := by
  intro s buf len cfg es hsucc hno
  obtain ⟨hi0, hi1, hmode1, htb1⟩ := send_success_post s buf len cfg hsucc
  obtain ⟨hmode2, htb2, _⟩ :=
    run_in_flight es (step s (.send_packet buf len cfg)).state cfg
      (pending_of s.mode) hi1 hmode1 hno
  rw [htb1] at htb2
  rcases hrun : run (step s (.send_packet buf len cfg)).state es with
    ⟨i2, m2, rip2, tb2, rv2, cr2⟩
  rw [hrun] at hmode2 htb2
  simp only at hmode2 htb2
  subst hmode2
  subst htb2
  cases hq : effective_pending (pending_of s.mode) es with
  | idle => exact ⟨by simp [step], by simp [step, apply_pending]⟩
  | rx c2 => exact ⟨by simp [step], by simp [step, apply_pending]⟩

/-- C2 witness: a packet sent from RX mode with a set_idle issued while
the transmission was in flight; the transmit-complete callback fires
with the sent buffer and the restored mode is Idle (the later call won). -/
theorem C2_mode_restored_after_tx_complete_witness :
    (step (run (step ⟨true, .rx ⟨⟨0, 0⟩, 0⟩, none, none, false, 0⟩
          (.send_packet 5 10 ⟨⟨0, 0⟩, 0, 10⟩)).state [event.set_idle]) .tx_complete).outs
        = [.tx_cb 5] ∧
    (step (run (step ⟨true, .rx ⟨⟨0, 0⟩, 0⟩, none, none, false, 0⟩
          (.send_packet 5 10 ⟨⟨0, 0⟩, 0, 10⟩)).state [event.set_idle]) .tx_complete).state.mode
        = apply_pending (effective_pending (pending_of (.rx ⟨⟨0, 0⟩, 0⟩)) [event.set_idle]) :=
  C2_mode_restored_after_tx_complete ⟨true, .rx ⟨⟨0, 0⟩, 0⟩, none, none, false, 0⟩
    5 10 ⟨⟨0, 0⟩, 0, 10⟩ [event.set_idle] (by decide) (by decide)

/-- A clamped reading is a representable non-sentinel 16-bit value. -/
theorem clamp_rssi_bounds (v : Int) :
    -32768 ≤ clamp_rssi v ∧ clamp_rssi v ≤ 32766 := by
  unfold clamp_rssi
  constructor
  · exact le_max_left _ _
  · apply max_le
    · norm_num
    · exact min_le_left _ _

/-- Every step preserves the RSSI sampler invariant. -/
theorem step_rssi_inv (s : radio_state) (e : event) (h : rssi_inv s) :
    rssi_inv (step s e).state := by
  unfold rssi_inv at h ⊢
  rcases s with ⟨i, m, rip, tb, rv, cr⟩
  cases e with
  | init => cases i <;> simp_all [step]
  | set_idle =>
      cases i with
      | false => simp_all [step]
      | true =>
          rcases m with _ | c | ⟨tc, _ | pc⟩ <;> rcases rip with _ | b2 <;>
            simp_all [step, hw_radio_is_idle]
  | set_rx cfg =>
      cases i with
      | false => simp_all [step]
      | true =>
          cases hv : rx_cfg_valid cfg with
          | false => simp_all [step]
          | true =>
              rcases m with _ | c | ⟨tc, _ | pc⟩ <;> rcases rip with _ | b2 <;>
                simp_all [step] <;> split_ifs <;> simp_all
  | send_packet buf len cfg =>
      cases i with
      | false => simp_all [step]
      | true =>
          cases hv : tx_cfg_valid cfg with
          | false => simp_all [step]
          | true =>
              cases hsz : (len == 0 || decide (255 < len)) with
              | true => simp_all [step]
              | false =>
                  rcases m with _ | c | ⟨tc, _ | pc⟩ <;> rcases rip with _ | b2 <;>
                    simp_all [step] <;> (try split_ifs) <;> simp_all
  | packet_detected len alloc =>
      rcases m with _ | c | ⟨tc, pc⟩ <;> rcases rip with _ | b2 <;>
        rcases alloc with _ | b3 <;> simp_all [step]
  | rx_complete =>
      rcases m with _ | c | ⟨tc, pc⟩ <;> rcases rip with _ | b2 <;>
        simp_all [step]
  | tx_complete =>
      rcases m with _ | c | ⟨tc, _ | pc⟩ <;> rcases tb with _ | b3 <;>
        simp_all [step]
  | rssi_settled v =>
      rcases m with _ | c | ⟨tc, pc⟩
      · simp_all [step]
      · have hb := clamp_rssi_bounds v
        simp_all [step]
      · simp_all [step]

/-- The RSSI sampler invariant holds along any run. -/
theorem run_rssi_inv (es : List event) :
    ∀ s : radio_state, rssi_inv s → rssi_inv (run s es) := by
  induction es with
  | nil => intro s h; simpa [run] using h
  | cons e es ih => intro s h; exact ih (step s e).state (step_rssi_inv s e h)

/-- C3 (amended): hw_radio_get_rssi returns the sentinel exactly when
hw_radio_rssi_valid is false (along any run from the initial state); a
set_rx that succeeds while no transmission is in flight — i.e. one that
actually (re-)enters RX — leaves the sampler invalid, so the sentinel is
returned immediately afterwards; the deferred RX entry of a set_rx
queued behind a transmission likewise invalidates the sampler when the
transmit-complete transition enters RX; and the sampler only ever
becomes valid through an rssi-settled event in RX mode, which fires the
rssi-valid callback with the newly stored reading — so a stale reading
taken under a configuration that has since changed is never returned as
valid. -/
theorem C3_rssi_validity_contract :
    ∀ (es : List event) (c : hw_rx_cfg_t) (e : event),
      ((hw_radio_get_rssi (run init_state es) = HW_RSSI_INVALID)
        ↔ hw_radio_rssi_valid (run init_state es) = false) ∧
      (∀ s : radio_state, (step s (.set_rx c)).res = some .success →
        hw_radio_tx_busy s = false →
        hw_radio_get_rssi (step s (.set_rx c)).state = HW_RSSI_INVALID) ∧
      (∀ (s : radio_state) (tc : hw_tx_cfg_t) (c2 : hw_rx_cfg_t) (b : Nat),
        s.mode = .tx tc (.rx c2) → s.tx_buf = some b →
        hw_radio_get_rssi (step s .tx_complete).state = HW_RSSI_INVALID) ∧
      (∀ s : radio_state, (step s e).state.rssi_is_valid = true →
        s.rssi_is_valid = true ∨
        ∃ (v2 : Int) (c2 : hw_rx_cfg_t), e = .rssi_settled v2 ∧ s.mode = .rx c2 ∧
          (step s e).outs = [.rssi_valid_cb (clamp_rssi v2)]) := by
  intro es c e
  refine ⟨?_, ?_, ?_, ?_⟩
  · have hinv : rssi_inv (run init_state es) :=
      run_rssi_inv es init_state (by intro h; simp [init_state] at h)
    unfold rssi_inv at hinv
    cases ht : (run init_state es).rssi_is_valid with
    | true =>
        have hb := hinv ht
        simp only [hw_radio_get_rssi, hw_radio_rssi_valid, ht, if_true, HW_RSSI_INVALID]
        constructor
        · intro hc2; omega
        · intro hc2; simp at hc2
    | false => simp [hw_radio_get_rssi, hw_radio_rssi_valid, ht]
  · intro s hs htb
    rcases s with ⟨i, m, rip, tb, rv, cr⟩
    cases i with
    | false => simp [step] at hs
    | true =>
        cases hv : rx_cfg_valid c with
        | false => simp [step, hv] at hs
        | true =>
            rcases m with _ | c0 | ⟨tc, pc⟩
            · simp [step, hv, hw_radio_get_rssi]
            · rcases rip with _ | b2 <;> by_cases hc : c0 = c <;>
                simp_all [step, hv, hw_radio_get_rssi]
            · simp [hw_radio_tx_busy] at htb
  · intro s tc c2 b hm hb
    rcases s with ⟨i, m, rip, tb, rv, cr⟩
    simp only at hm hb
    subst hm
    subst hb
    simp [step, hw_radio_get_rssi]
  · intro s hpost
    rcases s with ⟨i, m, rip, tb, rv, cr⟩
    cases e with
    | init => cases i <;> simp_all [step]
    | set_idle =>
        cases i with
        | false => simp_all [step]
        | true =>
            rcases m with _ | c0 | ⟨tc, _ | pc⟩ <;> rcases rip with _ | b2 <;>
              simp_all [step, hw_radio_is_idle]
    | set_rx cfg =>
        cases i with
        | false => simp_all [step]
        | true =>
            cases hv : rx_cfg_valid cfg with
            | false => simp_all [step]
            | true =>
                rcases m with _ | c0 | ⟨tc, _ | pc⟩ <;> rcases rip with _ | b2 <;>
                  simp_all [step] <;> (try split_ifs at hpost) <;> (try simp_all)
    | send_packet buf len cfg =>
        cases i with
        | false => simp_all [step]
        | true =>
            cases hv : tx_cfg_valid cfg with
            | false => simp_all [step]
            | true =>
                cases hsz : (len == 0 || decide (255 < len)) with
                | true => simp_all [step]
                | false =>
                    rcases m with _ | c0 | ⟨tc, _ | pc⟩ <;> rcases rip with _ | b2 <;>
                      simp_all [step] <;> (try split_ifs at hpost) <;> (try simp_all)
    | packet_detected len alloc =>
        rcases m with _ | c0 | ⟨tc, pc⟩ <;> rcases rip with _ | b2 <;>
          rcases alloc with _ | b3 <;> simp_all [step]
    | rx_complete =>
        rcases m with _ | c0 | ⟨tc, pc⟩ <;> rcases rip with _ | b2 <;>
          simp_all [step]
    | tx_complete =>
        rcases m with _ | c0 | ⟨tc, _ | pc⟩ <;> rcases tb with _ | b3 <;>
          simp_all [step]
    | rssi_settled v2 =>
        rcases m with _ | c0 | ⟨tc, pc⟩
        · simp_all [step]
        · exact Or.inr ⟨v2, c0, rfl, rfl, by simp [step]⟩
        · simp_all [step]

/-- C3 counterexample: the claim as frozen — the sentinel is returned
immediately after every set_rx call — fails on a set_rx returning
AlreadyInThisMode: after entering RX and letting the reading settle at
-80 dBm, a second identical set_rx has no hardware effect, so
hw_radio_get_rssi still returns -80, not the sentinel. -/
theorem C3_claim_counterexample :
    (step (run init_state
        [event.init, .set_rx ⟨⟨0, 0⟩, 0⟩, .rssi_settled (-80)]) (.set_rx ⟨⟨0, 0⟩, 0⟩)).res
      = some .ealready ∧
    hw_radio_get_rssi (step (run init_state
        [event.init, .set_rx ⟨⟨0, 0⟩, 0⟩, .rssi_settled (-80)]) (.set_rx ⟨⟨0, 0⟩, 0⟩)).state
      ≠ HW_RSSI_INVALID := by
  constructor
  · decide
  · decide

/-- C3 witness: a set_rx succeeding from idle (with a stale valid
reading in the sampler) leaves the sentinel. -/
theorem C3_rssi_validity_contract_witness :
    hw_radio_get_rssi (step ⟨true, .idle, none, none, true, -50⟩
        (.set_rx ⟨⟨0, 0⟩, 0⟩)).state = HW_RSSI_INVALID :=
  (C3_rssi_validity_contract [] ⟨⟨0, 0⟩, 0⟩ .init).2.1
    ⟨true, .idle, none, none, true, -50⟩ (by decide) (by decide)

end HwRadio
